import Mathlib

/-
Verification of the workflow orchestration and resilience engine of the
ib-agent backend.

The embedded code:
  - src/backend/app/workflows/base.py        (BaseWorkflow.run / BaseWorkflow.stream)
  - src/backend/app/workflows/company_lookup.py  (the three node bodies and build())
  - src/backend/app/utils/retry.py           (retry_with_backoff)

The graph runtime itself (StateGraph.compile().ainvoke / .astream, the
langgraph library) is not part of the repository sources; for a linear
chain such as the one built by CompanyLookupWorkflow.build() it invokes
each registered node function in sequence with the current state, merges
the returned update into the state through last-value channels (every key
of the update overwrites the previous state, all other keys are kept),
and propagates any exception a node raises. That sequential semantics is
embedded here as execChain. The runtime has no treatment of the reserved
error key and no retry around node invocation; the error checks visible
in the node bodies of company_lookup.py are the only short-circuit logic
in the program.

States are Python dicts with string keys; they are embedded as
association lists observed through lookupKey, which matches dict
indexing. External calls (llm_client.chat_completion,
browser_manager.scrape_page, json.loads) are black boxes and enter the
embedding as oracle parameters of type Except String _, one per call
site, carrying either the returned value or the message of the raised
exception.
-/

namespace IbAgent

/-- Values stored in a workflow state: strings, or the flat JSON object
produced by json.loads in extract_structured_data. -/
inductive Value where
  | str (s : String)
  | obj (fields : List (String × String))
deriving DecidableEq, Repr

/-- A workflow state (WorkflowState / CompanyLookupState): a Python dict
from string keys to values, embedded as an association list read through
lookupKey. -/
abbrev WState := List (String × Value)

/-- Dict lookup: state.get(k) / state[k] semantics, first binding wins. -/
def lookupKey (st : WState) (k : String) : Option Value :=
  match st with
  | [] => none
  | (k2, v) :: rest => if k2 = k then some v else lookupKey rest k

/-- Shallow dict union u over s, the state update rule of the runtime
(last-value channels) and of Python dict union: every key of u overwrites
the key in s, all other keys of s are kept. Observed through lookupKey. -/
def merge (s u : WState) : WState :=
  u ++ s

/-- Lookup distributes over append: the left list wins when it has the key. -/
theorem lookupKey_append (a b : WState) (k : String) :
    lookupKey (a ++ b) k =
      match lookupKey a k with
      | some v => some v
      | none => lookupKey b k := by
  induction a with
  | nil => simp [lookupKey]
  | cons hd tl ih =>
    obtain ⟨k2, v⟩ := hd
    by_cases h : k2 = k
    · simp [lookupKey, h]
    · simp [lookupKey, h, ih]

/-- C6. State merge semantics: merge(S, U) maps every key of U to U's
value, retains every key of S not in U unchanged, and merging two updates
in sequence agrees (pointwise) with merging once with their combination. -/
theorem merge_semantics :
    (∀ (S U : WState) (k : String) (v : Value),
       lookupKey U k = some v → lookupKey (merge S U) k = some v) ∧
    (∀ (S U : WState) (k : String),
       lookupKey U k = none → lookupKey (merge S U) k = lookupKey S k) ∧
    (∀ (S U1 U2 : WState) (k : String),
       lookupKey (merge (merge S U1) U2) k = lookupKey (merge S (merge U1 U2)) k) := by
  refine ⟨?_, ?_, ?_⟩
  · intro S U k v h
    rw [merge, lookupKey_append, h]
  · intro S U k h
    rw [merge, lookupKey_append, h]
  · intro S U1 U2 k
    rw [merge, merge, merge, merge, List.append_assoc]

/-- Concrete instance of merge_semantics: overwrite, retention and the
two-update agreement observed on explicit states. -/
theorem merge_semantics_witness :
    lookupKey (merge [("input", Value.str "a"), ("output", Value.str "b")]
                     [("output", Value.str "c")]) "output" = some (Value.str "c") ∧
    lookupKey (merge [("input", Value.str "a"), ("output", Value.str "b")]
                     [("output", Value.str "c")]) "input" = some (Value.str "a") ∧
    lookupKey (merge (merge [("input", Value.str "a")] [("x", Value.str "1")])
                     [("y", Value.str "2")]) "x" =
      lookupKey (merge [("input", Value.str "a")]
                       (merge [("x", Value.str "1")] [("y", Value.str "2")])) "x" := by
  refine ⟨?_, ?_, ?_⟩
  · exact merge_semantics.1 _ _ "output" (Value.str "c") rfl
  · exact merge_semantics.2.1 _ _ "input" rfl
  · exact merge_semantics.2.2 [("input", Value.str "a")] [("x", Value.str "1")]
      [("y", Value.str "2")] "x"

/-- Retry parameters of retry_with_backoff in src/backend/app/utils/retry.py
(max_retries, initial_delay, max_delay, exponential_base). Delays are
embedded as rationals. -/
structure RetryPolicy where
  maxRetries : Nat
  initialDelay : Rat
  maxDelay : Rat
  exponentialBase : Rat
deriving DecidableEq, Repr

/-- Delay computed before the retry that follows a failure of the attempt
with the given zero-based index: min(initial_delay * exponential_base **
attempt, max_delay), line 57 of retry.py. -/
def backoffDelay (p : RetryPolicy) (attempt : Nat) : Rat :=
  min (p.initialDelay * p.exponentialBase ^ attempt) p.maxDelay

/-- Observable outcome of one retry_with_backoff call: the returned value
or the exception that propagated, the number of invocations of fn, and
the sequence of sleeps performed between attempts. -/
structure RetryOutcome (E A : Type) where
  result : Except E A
  calls : Nat
  delays : List Rat
deriving Repr

/-- Body of the for-loop of retry_with_backoff (retry.py lines 40-62).
The function under retry is embedded as the sequence of outcomes of its
successive invocations (fn i is what the i-th invocation returns or
raises); retryable classifies an exception as belonging to the
`exceptions` tuple. The second numeric argument is the current attempt
index, the last is max_retries minus that index (how many further
attempts the loop still allows). At the last allowed attempt the caught
exception is re-raised unchanged; earlier, a retryable failure sleeps for
backoffDelay and continues, a non-retryable one propagates at once. -/
def retryLoop {E A : Type} (fn : Nat → Except E A) (retryable : E → Bool)
    (p : RetryPolicy) : Nat → Nat → RetryOutcome E A
  | attempt, 0 =>
    match fn attempt with
    | .ok v => ⟨.ok v, 1, []⟩
    | .error e => ⟨.error e, 1, []⟩
  | attempt, remaining + 1 =>
    match fn attempt with
    | .ok v => ⟨.ok v, 1, []⟩
    | .error e =>
      if retryable e then
        let rest := retryLoop fn retryable p (attempt + 1) remaining
        ⟨rest.result, rest.calls + 1, backoffDelay p attempt :: rest.delays⟩
      else ⟨.error e, 1, []⟩

/-- retry_with_backoff (retry.py lines 13-66): run the attempt loop from
attempt 0 with max_retries further attempts allowed. -/
def retry_with_backoff {E A : Type} (fn : Nat → Except E A)
    (retryable : E → Bool) (p : RetryPolicy) : RetryOutcome E A :=
  retryLoop fn retryable p 0 p.maxRetries

theorem retryLoop_of_ok {E A : Type} {fn : Nat → Except E A}
    {retryable : E → Bool} {p : RetryPolicy} {attempt : Nat} {v : A}
    (h : fn attempt = .ok v) (r : Nat) :
    retryLoop fn retryable p attempt r = ⟨.ok v, 1, []⟩ := by
  cases r <;> simp [retryLoop, h]

theorem retryLoop_first_ok {E A : Type} {fn : Nat → Except E A}
    {retryable : E → Bool} {p : RetryPolicy} {v : A} :
    ∀ (i a r : Nat), i ≤ r →
      (∀ j, j < i → ∃ e, fn (a + j) = .error e ∧ retryable e = true) →
      fn (a + i) = .ok v →
      retryLoop fn retryable p a r =
        ⟨.ok v, i + 1, (List.range' a i).map (backoffDelay p)⟩ := by
  intro i
  induction i with
  | zero =>
    intro a r _ _ hok
    simp only [Nat.add_zero] at hok
    simp [retryLoop_of_ok hok r]
  | succ i ih =>
    intro a r hir hfail hok
    obtain ⟨e, he, hre⟩ := hfail 0 (Nat.succ_pos i)
    simp only [Nat.add_zero] at he
    obtain ⟨r2, rfl⟩ : ∃ r2, r = r2 + 1 := by
      cases r with
      | zero => omega
      | succ r2 => exact ⟨r2, rfl⟩
    have hstep : retryLoop fn retryable p a (r2 + 1) =
        ⟨(retryLoop fn retryable p (a + 1) r2).result,
         (retryLoop fn retryable p (a + 1) r2).calls + 1,
         backoffDelay p a :: (retryLoop fn retryable p (a + 1) r2).delays⟩ := by
      simp [retryLoop, he, hre]
    have hrec := ih (a + 1) r2 (by omega)
      (fun j hj => by
        have h2 := hfail (j + 1) (by omega)
        have : a + (j + 1) = a + 1 + j := by omega
        rwa [this] at h2)
      (by
        have : a + (i + 1) = a + 1 + i := by omega
        rwa [this] at hok)
    rw [hstep, hrec]
    simp [List.range'_succ]

theorem retryLoop_first_nonretryable {E A : Type} {fn : Nat → Except E A}
    {retryable : E → Bool} {p : RetryPolicy} {e : E} :
    ∀ (i a r : Nat), i ≤ r →
      (∀ j, j < i → ∃ e2, fn (a + j) = .error e2 ∧ retryable e2 = true) →
      fn (a + i) = .error e → retryable e = false →
      retryLoop fn retryable p a r =
        ⟨.error e, i + 1, (List.range' a i).map (backoffDelay p)⟩ := by
  intro i
  induction i with
  | zero =>
    intro a r _ _ herr hnr
    simp only [Nat.add_zero] at herr
    cases r with
    | zero => simp [retryLoop, herr]
    | succ r2 => simp [retryLoop, herr, hnr]
  | succ i ih =>
    intro a r hir hfail herr hnr
    obtain ⟨e2, he2, hre2⟩ := hfail 0 (Nat.succ_pos i)
    simp only [Nat.add_zero] at he2
    obtain ⟨r2, rfl⟩ : ∃ r2, r = r2 + 1 := by
      cases r with
      | zero => omega
      | succ r2 => exact ⟨r2, rfl⟩
    have hstep : retryLoop fn retryable p a (r2 + 1) =
        ⟨(retryLoop fn retryable p (a + 1) r2).result,
         (retryLoop fn retryable p (a + 1) r2).calls + 1,
         backoffDelay p a :: (retryLoop fn retryable p (a + 1) r2).delays⟩ := by
      simp [retryLoop, he2, hre2]
    have hrec := ih (a + 1) r2 (by omega)
      (fun j hj => by
        have h2 := hfail (j + 1) (by omega)
        have : a + (j + 1) = a + 1 + j := by omega
        rwa [this] at h2)
      (by
        have : a + (i + 1) = a + 1 + i := by omega
        rwa [this] at herr)
      hnr
    rw [hstep, hrec]
    simp [List.range'_succ]

theorem retryLoop_exhaust {E A : Type} {fn : Nat → Except E A}
    {retryable : E → Bool} {p : RetryPolicy} :
    ∀ (r a : Nat),
      (∀ j, j ≤ r → ∃ e2, fn (a + j) = .error e2 ∧ retryable e2 = true) →
      ∀ e, fn (a + r) = .error e →
      retryLoop fn retryable p a r =
        ⟨.error e, r + 1, (List.range' a r).map (backoffDelay p)⟩ := by
  intro r
  induction r with
  | zero =>
    intro a _ e herr
    simp only [Nat.add_zero] at herr
    simp [retryLoop, herr]
  | succ r2 ih =>
    intro a hfail e herr
    obtain ⟨e2, he2, hre2⟩ := hfail 0 (by omega)
    simp only [Nat.add_zero] at he2
    have hstep : retryLoop fn retryable p a (r2 + 1) =
        ⟨(retryLoop fn retryable p (a + 1) r2).result,
         (retryLoop fn retryable p (a + 1) r2).calls + 1,
         backoffDelay p a :: (retryLoop fn retryable p (a + 1) r2).delays⟩ := by
      simp [retryLoop, he2, hre2]
    have hrec := ih (a + 1)
      (fun j hj => by
        have h2 := hfail (j + 1) (by omega)
        have : a + (j + 1) = a + 1 + j := by omega
        rwa [this] at h2)
      e
      (by
        have : a + (r2 + 1) = a + 1 + r2 := by omega
        rwa [this] at herr)
    rw [hstep, hrec]
    simp [List.range'_succ]

theorem retryLoop_delays_shape {E A : Type} {fn : Nat → Except E A}
    {retryable : E → Bool} {p : RetryPolicy} :
    ∀ (r a : Nat), ∃ k, k ≤ r ∧
      (retryLoop fn retryable p a r).calls = k + 1 ∧
      (retryLoop fn retryable p a r).delays =
        (List.range' a k).map (backoffDelay p) := by
  intro r
  induction r with
  | zero =>
    intro a
    refine ⟨0, Nat.le_refl 0, ?_⟩
    cases h : fn a <;> simp [retryLoop, h]
  | succ r2 ih =>
    intro a
    cases h : fn a with
    | ok v => exact ⟨0, by omega, by simp [retryLoop, h]⟩
    | error e =>
      cases hre : retryable e with
      | false => exact ⟨0, by omega, by simp [retryLoop, h, hre]⟩
      | true =>
        obtain ⟨k, hk, hcalls, hdelays⟩ := ih (a + 1)
        refine ⟨k + 1, by omega, ?_, ?_⟩
        · simp [retryLoop, h, hre, hcalls]
        · simp [retryLoop, h, hre, hdelays, List.range'_succ]

/-- C4. Retry contract of retry_with_backoff: the value of the first
successful attempt is returned with no further invocations; an exception
outside the retryable set propagates immediately without retry; when all
max_retries + 1 permitted attempts raise retryable exceptions, fn is
invoked exactly max_retries + 1 times and the final exception is
re-raised unchanged. -/
theorem retry_with_backoff_contract {E A : Type} (fn : Nat → Except E A)
    (retryable : E → Bool) (p : RetryPolicy) :
    (∀ i v, i ≤ p.maxRetries →
       (∀ j, j < i → ∃ e, fn j = .error e ∧ retryable e = true) →
       fn i = .ok v →
       (retry_with_backoff fn retryable p).result = .ok v ∧
       (retry_with_backoff fn retryable p).calls = i + 1) ∧
    (∀ i e, i ≤ p.maxRetries →
       (∀ j, j < i → ∃ e2, fn j = .error e2 ∧ retryable e2 = true) →
       fn i = .error e → retryable e = false →
       (retry_with_backoff fn retryable p).result = .error e ∧
       (retry_with_backoff fn retryable p).calls = i + 1) ∧
    (∀ e, (∀ j, j ≤ p.maxRetries → ∃ e2, fn j = .error e2 ∧ retryable e2 = true) →
       fn p.maxRetries = .error e →
       (retry_with_backoff fn retryable p).result = .error e ∧
       (retry_with_backoff fn retryable p).calls = p.maxRetries + 1) := by
  refine ⟨?_, ?_, ?_⟩
  · intro i v hi hfail hok
    have h := @retryLoop_first_ok E A fn retryable p v i 0 p.maxRetries hi
      (fun j hj => by simpa using hfail j hj) (by simpa using hok)
    rw [retry_with_backoff, h]
    exact ⟨rfl, rfl⟩
  · intro i e hi hfail herr hnr
    have h := @retryLoop_first_nonretryable E A fn retryable p e i 0 p.maxRetries hi
      (fun j hj => by simpa using hfail j hj) (by simpa using herr) hnr
    rw [retry_with_backoff, h]
    exact ⟨rfl, rfl⟩
  · intro e hfail herr
    have h := @retryLoop_exhaust E A fn retryable p p.maxRetries 0
      (fun j hj => by simpa using hfail j hj) e (by simpa using herr)
    rw [retry_with_backoff, h]
    exact ⟨rfl, rfl⟩

/-- Function that raises a retryable exception on every invocation. -/
def boomFn : Nat → Except String Unit :=
  fun _ => .error "boom"

/-- Classifier that marks every exception retryable, the default
exceptions=(Exception,) of retry.py. -/
def alwaysRetryable : String → Bool :=
  fun _ => true

/-- Policy with max_retries=2, initial_delay=0.1, max_delay=60,
exponential_base=2 (the test_retry.py backoff-timing configuration). -/
def polW : RetryPolicy :=
  ⟨2, 1/10, 60, 2⟩

/-- Concrete instance of retry_with_backoff_contract: with max_retries=2
an always-failing retryable function is invoked exactly 3 times and the
final exception propagates unchanged. -/
theorem retry_with_backoff_contract_witness :
    (retry_with_backoff boomFn alwaysRetryable polW).result = .error "boom" ∧
    (retry_with_backoff boomFn alwaysRetryable polW).calls = 3 :=
  (retry_with_backoff_contract boomFn alwaysRetryable polW).2.2 "boom"
    (fun _ _ => ⟨"boom", rfl, rfl⟩) rfl

/-- C5. Backoff schedule: the sleeps performed by one retry_with_backoff
call are exactly backoffDelay at indices 0, 1, ... in order, each equal
to min(initial_delay * exponential_base ** index, max_delay); no delay
exceeds max_delay, and when initial_delay is at most max_delay the delay
before the first retry is initial_delay itself. -/
theorem retry_backoff_schedule {E A : Type} (fn : Nat → Except E A)
    (retryable : E → Bool) (p : RetryPolicy) :
    (∃ k, (retry_with_backoff fn retryable p).calls = k + 1 ∧
       (retry_with_backoff fn retryable p).delays =
         (List.range k).map (backoffDelay p)) ∧
    (∀ d, d ∈ (retry_with_backoff fn retryable p).delays → d ≤ p.maxDelay) ∧
    (p.initialDelay ≤ p.maxDelay → backoffDelay p 0 = p.initialDelay) := by
  obtain ⟨k, _, hcalls, hdelays⟩ :=
    @retryLoop_delays_shape E A fn retryable p p.maxRetries 0
  refine ⟨⟨k, hcalls, ?_⟩, ?_, ?_⟩
  · rw [retry_with_backoff, hdelays, List.range_eq_range']
  · intro d hd
    rw [retry_with_backoff, hdelays] at hd
    obtain ⟨i, _, rfl⟩ := List.mem_map.mp hd
    exact min_le_right _ _
  · intro h
    rw [backoffDelay, pow_zero, mul_one]
    exact min_eq_left h

/-- Concrete instance of retry_backoff_schedule: with initial_delay=0.1
and exponential_base=2 the two sleeps of an exhausted max_retries=2 run
are 0.1 and 0.2 seconds, and the first delay equals initial_delay. -/
theorem retry_backoff_schedule_witness :
    (retry_with_backoff boomFn alwaysRetryable polW).delays = [1/10, 1/5] ∧
    backoffDelay polW 0 = 1/10 := by
  constructor
  · have h := @retryLoop_exhaust String Unit boomFn alwaysRetryable polW polW.maxRetries 0
      (fun j _ => ⟨"boom", rfl, rfl⟩) "boom" rfl
    rw [retry_with_backoff, h]
    show [backoffDelay polW 0, backoffDelay polW 1] = [1/10, 1/5]
    norm_num [backoffDelay, polW, min_def]
  · have h := (retry_backoff_schedule boomFn alwaysRetryable polW).2.2
      (by norm_num [polW])
    simpa [polW] using h

/-- A registered node function of the compiled graph: it receives the
current state and either returns a state update or raises an exception
(carried as a message). -/
abbrev NodeFn := WState → Except String WState

/-- Observable trace of one run of the compiled linear graph: the final
state reached by ainvoke (or the exception that propagated), the number
of node-body invocations performed, and the per-node update events
emitted by astream. -/
structure RunTrace where
  final : Except String WState
  invocations : Nat
  events : List (String × WState)
deriving Repr

/-- Execution of the compiled linear graph built by build() and driven by
BaseWorkflow.run / BaseWorkflow.stream (base.py lines 38-66): each node
function in chain order is invoked with the current state; an exception
it raises propagates and ends the run; otherwise its returned update is
shallow-merged into the state, the update is emitted as a stream event,
and execution moves to the next node. The runtime invokes every node
unconditionally: it has no inspection of the reserved error key and no
retry around the invocation. -/
def execChain : List (String × NodeFn) → WState → RunTrace
  | [], s => ⟨.ok s, 0, []⟩
  | (name, f) :: rest, s =>
    match f s with
    | .error e => ⟨.error e, 1, []⟩
    | .ok u =>
      let t := execChain rest (merge s u)
      ⟨t.final, t.invocations + 1, (name, u) :: t.events⟩

/-- BaseWorkflow.run: ainvoke to completion, returning the final state or
the propagated exception. -/
def workflow_run (nodes : List (String × NodeFn)) (initial : WState) :
    Except String WState :=
  (execChain nodes initial).final

/-- BaseWorkflow.stream: astream in updates mode, one emitted element per
executed node carrying the node name and the update it returned. -/
def workflow_stream (nodes : List (String × NodeFn)) (initial : WState) :
    List (String × WState) :=
  (execChain nodes initial).events

/-- Folding the streamed updates into a state, the merge that ainvoke
performs internally after each node. -/
def foldUpdates (initial : WState) (events : List (String × WState)) : WState :=
  events.foldl (fun acc ev => merge acc ev.2) initial

theorem foldUpdates_eq_run :
    ∀ (nodes : List (String × NodeFn)) (s sf : WState),
      workflow_run nodes s = .ok sf →
      foldUpdates s (workflow_stream nodes s) = sf := by
  intro nodes
  induction nodes with
  | nil =>
    intro s sf h
    simp only [workflow_run, execChain] at h
    cases h
    rfl
  | cons hd rest ih =>
    intro s sf h
    obtain ⟨name, f⟩ := hd
    simp only [workflow_run, execChain] at h
    cases hf : f s with
    | error e => rw [hf] at h; cases h
    | ok u =>
      rw [hf] at h
      simp only [workflow_stream, execChain, hf, foldUpdates, List.foldl_cons]
      exact ih (merge s u) sf h

/- The three node bodies of CompanyLookupWorkflow, company_lookup.py
lines 32-118. Each external call enters as an oracle argument holding
either the value the call returned or the message of the exception it
raised. Dict indexing state[k] on a missing key raises KeyError, and the
string methods applied to a non-string value raise, both outside the
try-block of the node, so those paths surface as Except.error. -/

/-- Python str.strip(): drop leading and trailing whitespace, embedded
over the character list of the string. -/
def stripStr (s : String) : String :=
  String.mk (((s.data.dropWhile (fun c => c.isWhitespace)).reverse.dropWhile
    (fun c => c.isWhitespace)).reverse)

/-- Python str.replace of the single character space by a plus sign,
embedded over the character list of the string. -/
def plusForSpaces (q : String) : String :=
  String.mk (q.data.map (fun c => if c = ' ' then '+' else c))

/-- generate_search_query (lines 32-56): reads company_name (KeyError if
absent), then under try calls the LLM; on success the stripped completion
becomes search_query, on any exception the update is a single error key
naming the step. There is no check of the error key in this node. -/
def generate_search_query (llm : Except String String) (state : WState) :
    Except String WState :=
  match lookupKey state "company_name" with
  | none => .error "KeyError: company_name"
  | some _ =>
    match llm with
    | .ok query => .ok [("search_query", Value.str (stripStr query))]
    | .error m => .ok [("error", Value.str ("Failed to generate search query: " ++ m))]

/-- URL built on line 66: the DuckDuckGo lite query URL with every space
of the query replaced by a plus sign. -/
def ddg_url (q : String) : String :=
  "https://lite.duckduckgo.com/lite/?q=" ++ plusForSpaces q

/-- search_company_info (lines 58-78): returns an empty update when the
state carries the error key; otherwise reads
state.get("search_query", state["company_name"]) - the default argument
is evaluated eagerly, so a missing company_name raises KeyError even when
search_query is present, and a non-string query makes .replace raise -
builds the search URL, and under try scrapes it; the page text becomes
raw_data, any exception becomes a single error-key update naming the
step. -/
def search_company_info (scrape : String → Except String String)
    (state : WState) : Except String WState :=
  if (lookupKey state "error").isSome then .ok []
  else
    match lookupKey state "company_name" with
    | none => .error "KeyError: company_name"
    | some cnv =>
      match (lookupKey state "search_query").getD cnv with
      | Value.obj _ => .error "AttributeError: replace"
      | Value.str q =>
        match scrape (ddg_url q) with
        | .ok text => .ok [("raw_data", Value.str text)]
        | .error m => .ok [("error", Value.str ("Failed to search for company info: " ++ m))]

/-- extract_structured_data (lines 80-118): returns an empty update when
the state carries the error key; otherwise reads raw_data with default ""
and company_name (KeyError if absent), slices raw_data into the prompt (a
non-string raw_data raises), and under try calls the LLM and json.loads
on its response; the parsed object becomes structured_info, any exception
(the LLM call or the JSON parse) becomes a single error-key update naming
the step. The oracle carries the joint outcome of the two calls inside
the try-block. -/
def extract_structured_data (llmParse : Except String (List (String × String)))
    (state : WState) : Except String WState :=
  if (lookupKey state "error").isSome then .ok []
  else
    match lookupKey state "company_name" with
    | none => .error "KeyError: company_name"
    | some _ =>
      match (lookupKey state "raw_data").getD (Value.str "") with
      | Value.obj _ => .error "TypeError: slice of non-str"
      | Value.str _ =>
        match llmParse with
        | .ok fields => .ok [("structured_info", Value.obj fields)]
        | .error m => .ok [("error", Value.str ("Failed to extract structured data: " ++ m))]

/-- The chain registered by CompanyLookupWorkflow.build (lines 120-135):
nodes generate_query, search, extract wired linearly from START to END,
each node function passed to add_node exactly as defined, with no
wrapper around it. -/
def companyChain (llm : Except String String)
    (scrape : String → Except String String)
    (llmParse : Except String (List (String × String))) :
    List (String × NodeFn) :=
  [("generate_query", generate_search_query llm),
   ("search", search_company_info scrape),
   ("extract", extract_structured_data llmParse)]

/-- End-to-end scenario of the spec: the LLM answers "Acme Inc revenue"
for the query generation, the scrape returns "Acme Inc ...", and the
extraction LLM call parses to the object name -> Acme Inc. -/
def scenarioChain : List (String × NodeFn) :=
  companyChain (.ok "Acme Inc revenue") (fun _ => .ok "Acme Inc ...")
    (.ok [("name", "Acme Inc")])

/-- Initial state of the end-to-end scenario. -/
def scenarioInit : WState :=
  [("input", Value.str "Acme Inc"), ("company_name", Value.str "Acme Inc")]

/-- Final state the scenario run reaches. -/
def scenarioFinal : WState :=
  [("structured_info", Value.obj [("name", "Acme Inc")]),
   ("raw_data", Value.str "Acme Inc ..."),
   ("search_query", Value.str "Acme Inc revenue"),
   ("input", Value.str "Acme Inc"),
   ("company_name", Value.str "Acme Inc")]

/-- Keys of the final state that are not keys of the initial state. -/
def addedKeys (initial fin : WState) : List String :=
  ((fin.map Prod.fst).filter (fun k => (lookupKey initial k).isNone)).eraseDups

/-- C7 counterexample: running the generate_query, search, extract
scenario from the state with input and company_name adds exactly three
keys (search_query, raw_data, structured_info) to the state, not four as
the claim states. -/
theorem scenario_adds_three_keys :
    workflow_run scenarioChain scenarioInit = .ok scenarioFinal ∧
    addedKeys scenarioInit scenarioFinal =
      ["structured_info", "raw_data", "search_query"] ∧
    (addedKeys scenarioInit scenarioFinal).length = 3 := by
  refine ⟨rfl, by decide, by decide⟩

/-- C7 (amended). Streaming agrees with run-to-completion: whenever run
returns a final state, folding the updates emitted by stream into the
initial state yields that same state; and in the concrete generate_query,
search, extract scenario, stream emits exactly 3 elements in that node
order and the final state carries the three added keys search_query,
raw_data and structured_info alongside the original input and
company_name keys. -/
theorem streaming_agrees_with_run :
    (∀ (nodes : List (String × NodeFn)) (s sf : WState),
       workflow_run nodes s = .ok sf →
       foldUpdates s (workflow_stream nodes s) = sf) ∧
    (workflow_stream scenarioChain scenarioInit).map Prod.fst =
      ["generate_query", "search", "extract"] ∧
    workflow_run scenarioChain scenarioInit = .ok scenarioFinal ∧
    ((lookupKey scenarioFinal "input").isSome ∧
     (lookupKey scenarioFinal "company_name").isSome ∧
     (lookupKey scenarioFinal "search_query").isSome ∧
     (lookupKey scenarioFinal "raw_data").isSome ∧
     (lookupKey scenarioFinal "structured_info").isSome) := by
  exact ⟨foldUpdates_eq_run, rfl, rfl, rfl, rfl, rfl, rfl, rfl⟩

/-- Concrete instance of streaming_agrees_with_run: folding the three
streamed updates of the scenario into its initial state reaches the run
final state. -/
theorem streaming_agrees_with_run_witness :
    foldUpdates scenarioInit (workflow_stream scenarioChain scenarioInit) =
      scenarioFinal :=
  streaming_agrees_with_run.1 scenarioChain scenarioInit scenarioFinal rfl

/-- Node that writes a probe key whenever its body runs. -/
def probeNode : NodeFn :=
  fun _ => .ok [("probe", Value.str "ran")]

/-- State already carrying the reserved error key. -/
def errState : WState :=
  [("error", Value.str "x")]

/-- C1 counterexample: a graph whose single node is not error-aware, run
from a state that already carries the error key. The runtime invokes the
node (invocation count 1, not 0) and merges its full update (the probe
key reaches the final state), so the executor performs no central
error-key short-circuit. -/
theorem executor_invokes_node_despite_error :
    execChain [("probe_node", probeNode)] errState =
      ⟨.ok [("probe", Value.str "ran"), ("error", Value.str "x")], 1,
       [("probe_node", [("probe", Value.str "ran")])]⟩ :=
  rfl

/-- C1 (amended). Short-circuit is implemented in the node bodies, not by
the executor: each node of CompanyLookupWorkflow after the first begins
by inspecting the state for the reserved error key and returns an empty
update when it is present, and because the executor merges those empty
updates the error-carrying state passes unchanged through the rest of the
graph, while the node bodies themselves are still invoked. -/
theorem short_circuit_in_node_bodies (st : WState)
    (h : (lookupKey st "error").isSome)
    (scrape : String → Except String String)
    (llmParse : Except String (List (String × String))) :
    search_company_info scrape st = .ok [] ∧
    extract_structured_data llmParse st = .ok [] ∧
    execChain [("search", search_company_info scrape),
               ("extract", extract_structured_data llmParse)] st =
      ⟨.ok st, 2, [("search", []), ("extract", [])]⟩ := by
  have h1 : search_company_info scrape st = .ok [] := by
    simp [search_company_info, h]
  have h2 : extract_structured_data llmParse st = .ok [] := by
    simp [extract_structured_data, h]
  refine ⟨h1, h2, ?_⟩
  simp [execChain, h1, h2, merge]

/-- Concrete instance of short_circuit_in_node_bodies on a state whose
error key is set. -/
theorem short_circuit_in_node_bodies_witness :
    search_company_info (fun _ => Except.ok "page") errState = .ok [] ∧
    extract_structured_data (Except.ok [("name", "A")]) errState = .ok [] := by
  have h := short_circuit_in_node_bodies errState rfl
    (fun _ => Except.ok "page") (Except.ok [("name", "A")])
  exact ⟨h.1, h.2.1⟩

/-- Node whose body always raises. -/
def failingNode : NodeFn :=
  fun _ => .error "boom"

/-- The default configuration of retry_with_backoff in retry.py:
max_retries=3, initial_delay=1.0, max_delay=60.0, exponential_base=2.0. -/
def defaultRetryPolicy : RetryPolicy :=
  ⟨3, 1, 60, 2⟩

/-- C2 counterexample: the executor invokes an always-failing node
exactly once and propagates its exception, while retry_with_backoff under
its default policy invokes the same always-failing function 4 times - so
node invocation inside run/stream is not wrapped in the retry
primitive. -/
theorem executor_node_not_wrapped_in_retry :
    (execChain [("n", failingNode)] []).invocations = 1 ∧
    (retry_with_backoff boomFn alwaysRetryable defaultRetryPolicy).calls = 4 ∧
    (execChain [("n", failingNode)] []).invocations ≠
      (retry_with_backoff boomFn alwaysRetryable defaultRetryPolicy).calls := by
  refine ⟨rfl, rfl, by decide⟩

/-- C2 (amended). build() registers the node functions unwrapped and the
executor invokes each of them directly: a node that raises is attempted
exactly once per traversal and its exception propagates at once;
retry_with_backoff is a standalone utility that no call site of the
workflow engine applies to node invocation. -/
theorem executor_invokes_nodes_directly (e : String) (s : WState) :
    execChain [("n", fun _ => Except.error e)] s = ⟨.error e, 1, []⟩ :=
  rfl

/-- Node A of the spec short-circuit scenario: sets error to x. -/
def nodeA : NodeFn :=
  fun _ => .ok [("error", Value.str "x")]

/-- Node B: error-aware body that records an effect key only when no
error is present. -/
def nodeB : NodeFn :=
  fun st => .ok (if (lookupKey st "error").isSome then []
                 else [("b_effect", Value.str "1")])

/-- Node C: error-aware body that records an effect key only when no
error is present. -/
def nodeC : NodeFn :=
  fun st => .ok (if (lookupKey st "error").isSome then []
                 else [("c_effect", Value.str "1")])

/-- The 3-node linear graph A, B, C of the short-circuit scenario. -/
def abcChain : List (String × NodeFn) :=
  [("A", nodeA), ("B", nodeB), ("C", nodeC)]

/-- Initial state of the short-circuit scenario. -/
def abcInit : WState :=
  [("input", Value.str "start")]

/-- Final state of the short-circuit scenario. -/
def abcFinal : WState :=
  [("error", Value.str "x"), ("input", Value.str "start")]

/-- C8 counterexample: in the A, B, C scenario where A sets error, all
three node bodies are invoked - a per-node invocation counter reads 3,
not 1 as the claim states. -/
theorem short_circuit_counter_reads_three :
    (execChain abcChain abcInit).invocations = 3 ∧
    (execChain abcChain abcInit).invocations ≠ 1 :=
  ⟨rfl, by decide⟩

/-- C8 (amended). In the 3-node linear graph A, B, C where A sets error
to x, the run yields a final state whose error key equals x and B and C
contribute empty updates so no effect of theirs reaches the state; their
bodies are nevertheless invoked (counter 3), the empty updates coming
from their own error checks. -/
theorem short_circuit_observable_outcome :
    execChain abcChain abcInit =
      ⟨.ok abcFinal, 3,
       [("A", [("error", Value.str "x")]), ("B", []), ("C", [])]⟩ ∧
    lookupKey abcFinal "error" = some (Value.str "x") :=
  ⟨rfl, rfl⟩

/-- Modelled from the spec: the checkpointing side of the compiled graph
(the MemorySaver attached in BaseWorkflow.compile and the thread-id
plumbing of the runtime are not under src). Spec sections 4.3, 4.6 and 6:
after each node completes, the executor puts a checkpoint
(run_id, step_index, state) keyed by the thread identifier of the run
configuration; absence of an id implies a checkpointer no-op (stateless
run). Returns the run result together with the list of checkpoints
written. -/
def execCheckpointed : List (String × NodeFn) → Option String → Nat → WState →
    Except String WState × List (String × Nat × WState)
  | [], _, _, s => (.ok s, [])
  | (_, f) :: rest, rid, i, s =>
    match f s with
    | .error e => (.error e, [])
    | .ok u =>
      let s2 := merge s u
      let r := execCheckpointed rest rid (i + 1) s2
      (r.1, (match rid with | some t => [(t, i, s2)] | none => []) ++ r.2)

/-- Thread identifier of a run configuration mapping, the key the
Checkpointer is keyed by. -/
def threadIdOf (config : List (String × String)) : Option String :=
  match config with
  | [] => none
  | (k, v) :: rest => if k = "thread_id" then some v else threadIdOf rest

/-- BaseWorkflow.run on the graph compiled with the checkpointer (base.py
lines 32-51): a None config is replaced by the empty mapping (config or
empty dict) and the compiled graph is invoked with it. -/
def run_with_config (nodes : List (String × NodeFn)) (initial : WState)
    (config : Option (List (String × String))) :
    Except String WState × List (String × Nat × WState) :=
  execCheckpointed nodes (threadIdOf (config.getD [])) 0 initial

theorem execCheckpointed_none :
    ∀ (nodes : List (String × NodeFn)) (i : Nat) (s : WState),
      execCheckpointed nodes none i s = ((execChain nodes s).final, []) := by
  intro nodes
  induction nodes with
  | nil => intro i s; rfl
  | cons hd rest ih =>
    intro i s
    obtain ⟨name, f⟩ := hd
    cases hf : f s with
    | error e => simp [execCheckpointed, execChain, hf]
    | ok u => simp [execCheckpointed, execChain, hf, ih]

/-- C3. A run configuration without a thread identifier (None or the
empty mapping) still executes the workflow exactly as the plain run does,
with checkpointing a no-op: the absence of an id never causes the run to
fail. -/
theorem stateless_run_without_thread_id (nodes : List (String × NodeFn))
    (initial : WState) (config : Option (List (String × String)))
    (h : config = none ∨ config = some []) :
    (run_with_config nodes initial config).1 = workflow_run nodes initial ∧
    (run_with_config nodes initial config).2 = [] := by
  have hc : threadIdOf (config.getD []) = none := by
    rcases h with h | h <;> subst h <;> rfl
  rw [run_with_config, hc, execCheckpointed_none]
  exact ⟨rfl, rfl⟩

/-- Concrete instance of stateless_run_without_thread_id: the scenario
run with config None completes like the plain run and writes no
checkpoint. -/
theorem stateless_run_witness :
    (run_with_config scenarioChain scenarioInit none).1 =
      workflow_run scenarioChain scenarioInit ∧
    (run_with_config scenarioChain scenarioInit none).2 = [] :=
  stateless_run_without_thread_id scenarioChain scenarioInit none (Or.inl rfl)

/-- C9. Node totality: on any input state carrying company_name (with the
states typed as CompanyLookupState declares, search_query and raw_data
strings when present), each of the three node bodies returns an update
and never propagates an exception, whatever the external call does; an
exception of the external call surfaces as an update holding only an
error key whose message names the failed step. -/
theorem company_nodes_total (st : WState) (cn : String)
    (hcn : lookupKey st "company_name" = some (Value.str cn)) :
    (∀ llm, ∃ u, generate_search_query llm st = .ok u) ∧
    (∀ m, generate_search_query (.error m) st =
       .ok [("error", Value.str ("Failed to generate search query: " ++ m))]) ∧
    ((∀ v, lookupKey st "search_query" = some v → ∃ q, v = Value.str q) →
       (∀ scrape, ∃ u, search_company_info scrape st = .ok u) ∧
       (∀ m, lookupKey st "error" = none →
          search_company_info (fun _ => .error m) st =
            .ok [("error", Value.str ("Failed to search for company info: " ++ m))])) ∧
    ((∀ v, lookupKey st "raw_data" = some v → ∃ r2, v = Value.str r2) →
       (∀ llmParse, ∃ u, extract_structured_data llmParse st = .ok u) ∧
       (∀ m, lookupKey st "error" = none →
          extract_structured_data (.error m) st =
            .ok [("error", Value.str ("Failed to extract structured data: " ++ m))])) := by
  refine ⟨?_, ?_, ?_, ?_⟩
  · intro llm
    cases llm with
    | ok q =>
      exact ⟨[("search_query", Value.str (stripStr q))],
        by simp [generate_search_query, hcn]⟩
    | error m =>
      exact ⟨[("error", Value.str ("Failed to generate search query: " ++ m))],
        by simp [generate_search_query, hcn]⟩
  · intro m
    simp [generate_search_query, hcn]
  · intro hq
    constructor
    · intro scrape
      by_cases herr : (lookupKey st "error").isSome
      · exact ⟨[], by simp [search_company_info, herr]⟩
      · cases hsq : lookupKey st "search_query" with
        | none =>
          cases hs : scrape (ddg_url cn) with
          | ok text =>
            exact ⟨[("raw_data", Value.str text)],
              by simp [search_company_info, herr, hcn, hsq, hs]⟩
          | error m =>
            exact ⟨[("error", Value.str ("Failed to search for company info: " ++ m))],
              by simp [search_company_info, herr, hcn, hsq, hs]⟩
        | some v =>
          obtain ⟨q, rfl⟩ := hq v hsq
          cases hs : scrape (ddg_url q) with
          | ok text =>
            exact ⟨[("raw_data", Value.str text)],
              by simp [search_company_info, herr, hcn, hsq, hs]⟩
          | error m =>
            exact ⟨[("error", Value.str ("Failed to search for company info: " ++ m))],
              by simp [search_company_info, herr, hcn, hsq, hs]⟩
    · intro m herr
      cases hsq : lookupKey st "search_query" with
      | none => simp [search_company_info, herr, hcn, hsq]
      | some v =>
        obtain ⟨q, rfl⟩ := hq v hsq
        simp [search_company_info, herr, hcn, hsq]
  · intro hr
    constructor
    · intro llmParse
      by_cases herr : (lookupKey st "error").isSome
      · exact ⟨[], by simp [extract_structured_data, herr]⟩
      · cases hrd : lookupKey st "raw_data" with
        | none =>
          cases llmParse with
          | ok fields =>
            exact ⟨[("structured_info", Value.obj fields)],
              by simp [extract_structured_data, herr, hcn, hrd]⟩
          | error m =>
            exact ⟨[("error", Value.str ("Failed to extract structured data: " ++ m))],
              by simp [extract_structured_data, herr, hcn, hrd]⟩
        | some v =>
          obtain ⟨r2, rfl⟩ := hr v hrd
          cases llmParse with
          | ok fields =>
            exact ⟨[("structured_info", Value.obj fields)],
              by simp [extract_structured_data, herr, hcn, hrd]⟩
          | error m =>
            exact ⟨[("error", Value.str ("Failed to extract structured data: " ++ m))],
              by simp [extract_structured_data, herr, hcn, hrd]⟩
    · intro m herr
      cases hrd : lookupKey st "raw_data" with
      | none => simp [extract_structured_data, herr, hcn, hrd]
      | some v =>
        obtain ⟨r2, rfl⟩ := hr v hrd
        simp [extract_structured_data, herr, hcn, hrd]

/-- State holding only company_name. -/
def totalSt : WState :=
  [("company_name", Value.str "Acme")]

/-- Concrete instance of company_nodes_total: with every external call
raising, each node converts the exception into the error update naming
its step. -/
theorem company_nodes_total_witness :
    generate_search_query (.error "boom") totalSt =
      .ok [("error", Value.str ("Failed to generate search query: " ++ "boom"))] ∧
    search_company_info (fun _ => .error "boom") totalSt =
      .ok [("error", Value.str ("Failed to search for company info: " ++ "boom"))] ∧
    extract_structured_data (.error "boom") totalSt =
      .ok [("error", Value.str ("Failed to extract structured data: " ++ "boom"))] := by
  have h := company_nodes_total totalSt "Acme" rfl
  refine ⟨h.2.1 "boom", ?_, ?_⟩
  · exact (h.2.2.1 (fun v hv => nomatch hv)).2 "boom" rfl
  · exact (h.2.2.2 (fun v hv => nomatch hv)).2 "boom" rfl

/-- C10. Query fallback: on a state with no error key and no search_query
key, search_company_info uses company_name itself as the query - the URL
it scrapes is the DuckDuckGo URL built from company_name with spaces
replaced by plus signs - and proceeds with the search. -/
theorem search_query_fallback (st : WState) (cn : String)
    (scrape : String → Except String String)
    (herr : lookupKey st "error" = none)
    (hq : lookupKey st "search_query" = none)
    (hcn : lookupKey st "company_name" = some (Value.str cn)) :
    search_company_info scrape st =
      match scrape (ddg_url cn) with
      | .ok text => .ok [("raw_data", Value.str text)]
      | .error m =>
        .ok [("error", Value.str ("Failed to search for company info: " ++ m))] := by
  simp [search_company_info, herr, hq, hcn]

/-- Concrete instance of search_query_fallback: with company_name
"Acme Inc" and no search_query, the scraped URL is the DuckDuckGo URL
with the space turned into a plus. -/
theorem search_query_fallback_witness :
    search_company_info (fun _ => Except.ok "page text")
        [("company_name", Value.str "Acme Inc")] =
      .ok [("raw_data", Value.str "page text")] ∧
    ddg_url "Acme Inc" = "https://lite.duckduckgo.com/lite/?q=Acme+Inc" := by
  constructor
  · exact search_query_fallback [("company_name", Value.str "Acme Inc")]
      "Acme Inc" (fun _ => Except.ok "page text") rfl rfl rfl
  · decide

end IbAgent
